import Mathlib

/-!
Verification model of buildstream's roundtrip YAML core and loader:

* `src/buildstream/_yaml_roundtrip.py` — provenance records, node
  decoration, composition engine (`composite_list*`, `composite_dict`,
  `composite`, `composite_and_move`), `node_sanitize`, `node_validate`,
  `load_data`, `node_copy` / `list_copy`.
* `src/buildstream/_loader/loadelement.py` — `LoadElement.depends`,
  `_ensure_depends_cache`, `_extract_depends_from_node`.

Modelling conventions:

* A YAML node is a `Value`: a ruamel string scalar, a list, or a dict.
  The in-band provenance entry stored in every dict under the reserved
  key `__bst_provenance_info` is modelled as the separate `prov?` field
  of `NDict`; iteration over `node_items` (which skips that key) is thus
  iteration over `NDict.entries`, and operations that touch the raw
  provenance entry (`node_copy`, `composite_and_move`) handle the field
  explicitly.
* Dicts are ordered association lists (Python dict insertion order):
  assignment to an existing key keeps its position, a new key is
  appended, `del` removes it.
* Provenance records form the `Prov` tree: `dictP` (DictProvenance, with
  `members`), `memberP` (MemberProvenance) and `elementP`
  (ElementProvenance) both with `elements`.  The `lc`-derived line and
  column numbers carry no weight in any claim, so decoration fills in
  constants.  A `PElem` is a Python value stored in an `elements` list:
  either a provenance record, or — reproducing the bug in
  `ElementProvenance.clone`, which evaluates `e.clone` without calling
  it — a bound `clone` method object (`PElem.method`).
* Exceptions become `Except Err`: `LoadError(INVALID_DATA, …)` is
  `Err.invalidData`, `LoadError(INVALID_YAML, …)` is `Err.invalidYaml`,
  `LoadError(ILLEGAL_COMPOSITE, …)` is `Err.illegalComposite` carrying
  the dotted path plus expected/actual Python kinds rendered into its
  message, the internal `CompositeTypeError` keeps the same payload, and
  unmodelled Python faults (AttributeError / KeyError on provenance
  structures) are `Err.pyFault`.
-/

/-- Python type kinds as they appear in composition error messages
(`type(value).__name__`). -/
inductive PyKind where
  | str
  | list
  | dict
  | noneType
deriving DecidableEq

/-- Errors raised by the modelled code.  `invalidData` / `invalidYaml` /
`illegalComposite` are `LoadError`s with the corresponding
`LoadErrorReason`; `compositeTypeError` is the internal exception of
`_yaml_roundtrip.py` lines 167-175; `pyFault` stands for an interpreter
error (AttributeError, KeyError) reachable only off the decorated-node
paths. -/
inductive Err where
  | invalidData
  | invalidYaml
  | illegalComposite (path : String) (expected actual : PyKind)
  | compositeTypeError (path : String) (expected actual : PyKind)
  | pyFault
deriving DecidableEq

mutual
/-- Provenance records (lines 62-155): `dictP` is `DictProvenance` with its
`members` map, `memberP` is `MemberProvenance`, `elementP` is
`ElementProvenance`; the latter two own an `elements` list. -/
inductive Prov where
  | dictP (line col : Nat) (members : List (String × Prov))
  | memberP (line col : Nat) (elements : List PElem)
  | elementP (line col : Nat) (elements : List PElem)

/-- An entry of a provenance `elements` list: a provenance record, or the
uncalled bound method `e.clone` that `ElementProvenance.clone` (line 154)
stores instead of a clone. -/
inductive PElem where
  | prov (p : Prov)
  | method (p : Prov)
end

mutual
/-- `Provenance.clone` dispatched by class.  `DictProvenance.clone`
(lines 98-106) clones every member; `MemberProvenance.clone` (lines
126-130) evaluates `e.clone()` on every element; `ElementProvenance.clone`
(lines 150-155) evaluates `e.clone` — the bound method, uncalled — on
every element. -/
def Prov.clone : Prov → Except Err Prov
  | .dictP l c ms => do pure (.dictP l c (← cloneMembers ms))
  | .memberP l c es => do pure (.memberP l c (← cloneElemsCall es))
  | .elementP l c es => do pure (.elementP l c (← cloneElemsAttr es))

/-- The member dictionary comprehension of `DictProvenance.clone`. -/
def cloneMembers : List (String × Prov) → Except Err (List (String × Prov))
  | [] => pure []
  | (k, p) :: ms => do pure ((k, ← p.clone) :: (← cloneMembers ms))

/-- `[e.clone() for e in self.elements]` (line 129): calling `clone` on a
stored bound-method object is an AttributeError. -/
def cloneElemsCall : List PElem → Except Err (List PElem)
  | [] => pure []
  | .prov p :: es => do pure (.prov (← p.clone) :: (← cloneElemsCall es))
  | .method _ :: _ => throw .pyFault

/-- `[e.clone for e in self.elements]` (line 154): attribute access only,
so a provenance element becomes its uncalled bound method. -/
def cloneElemsAttr : List PElem → Except Err (List PElem)
  | [] => pure []
  | .prov p :: es => do pure (.method p :: (← cloneElemsAttr es))
  | .method _ :: _ => throw .pyFault
end

mutual
/-- A loaded YAML value: ruamel scalars are strings (ints/floats are
re-constructed as strings, lines 32-33). -/
inductive Value where
  | scalar (s : String)
  | vlist (xs : List Value)
  | vdict (d : NDict)

/-- A dict node: ordered entries plus the provenance record held in the
real code under the reserved `PROVENANCE_KEY` entry. -/
inductive NDict where
  | mk (prov? : Option Prov) (entries : List (String × Value))
end

def NDict.provOpt : NDict → Option Prov
  | .mk p _ => p

def NDict.entries : NDict → List (String × Value)
  | .mk _ es => es

/-- Python `dict.get` on the non-provenance entries. -/
def lookupKey : List (String × Value) → String → Option Value
  | [], _ => none
  | (k, v) :: es, key => if k = key then some v else lookupKey es key

/-- Python dict assignment: replace in place, else append. -/
def setKey : List (String × Value) → String → Value → List (String × Value)
  | [], key, v => [(key, v)]
  | (k, w) :: es, key, v =>
      if k = key then (k, v) :: es else (k, w) :: setKey es key v

/-- Python `del d[key]` (keys are unique in a dict). -/
def delKeyE : List (String × Value) → String → List (String × Value)
  | [], _ => []
  | (k, w) :: es, key => if k = key then es else (k, w) :: delKeyE es key

def hasKeyE (es : List (String × Value)) (key : String) : Bool :=
  (lookupKey es key).isSome

def NDict.get (d : NDict) (key : String) : Option Value :=
  lookupKey d.entries key

def NDict.set (d : NDict) (key : String) (v : Value) : NDict :=
  .mk d.provOpt (setKey d.entries key v)

def NDict.del (d : NDict) (key : String) : NDict :=
  .mk d.provOpt (delKeyE d.entries key)

def NDict.hasKey (d : NDict) (key : String) : Bool :=
  hasKeyE d.entries key

def NDict.keys (d : NDict) : List String :=
  d.entries.map Prod.fst

/-- `type(value).__name__` for a loaded value. -/
def Value.kindOf : Value → PyKind
  | .scalar _ => .str
  | .vlist _ => .list
  | .vdict _ => .dict

def memberLookup : List (String × Prov) → String → Option Prov
  | [], _ => none
  | (k, p) :: ms, key => if k = key then some p else memberLookup ms key

def memberSet : List (String × Prov) → String → Prov → List (String × Prov)
  | [], key, p => [(key, p)]
  | (k, q) :: ms, key, p =>
      if k = key then (k, p) :: ms else (k, q) :: memberSet ms key p

def memberDel : List (String × Prov) → String → List (String × Prov)
  | [], _ => []
  | (k, q) :: ms, key => if k = key then ms else (k, q) :: memberDel ms key

/-- The `.members` attribute: only a `DictProvenance` has it. -/
def Prov.membersOf : Prov → Except Err (List (String × Prov))
  | .dictP _ _ ms => pure ms
  | _ => throw .pyFault

/-- The `.elements` attribute: only Member/Element provenances have it. -/
def Prov.elementsOf : Prov → Except Err (List PElem)
  | .memberP _ _ es => pure es
  | .elementP _ _ es => pure es
  | _ => throw .pyFault

def Prov.withMembers : Prov → List (String × Prov) → Except Err Prov
  | .dictP l c _, ms => pure (.dictP l c ms)
  | _, _ => throw .pyFault

def Prov.withElements : Prov → List PElem → Except Err Prov
  | .memberP l c _, es => pure (.memberP l c es)
  | .elementP l c _, es => pure (.elementP l c es)
  | _, _ => throw .pyFault

/-- `target_provenance.members[key] = m` where `target_provenance` is the
dict provenance of `d`; an absent or non-dict provenance is an
AttributeError in the source. -/
def NDict.setProvMember (d : NDict) (key : String) (m : Prov) : Except Err NDict := do
  match d.provOpt with
  | some p => do
      let ms ← p.membersOf
      let p' ← p.withMembers (memberSet ms key m)
      pure (.mk (some p') d.entries)
  | none => throw .pyFault

/-- Delete a member provenance, ignoring a missing key. -/
def NDict.delProvMember (d : NDict) (key : String) : NDict :=
  match d.provOpt with
  | some (.dictP l c ms) => .mk (some (.dictP l c (memberDel ms key))) d.entries
  | _ => d

/-- `ensure_provenance` (lines 432-438): give a node a dummy
`DictProvenance` (an empty dict has line 1, column 0) when it has none. -/
def ensure_provenance (d : NDict) : NDict :=
  match d.provOpt with
  | some _ => d
  | none => .mk (some (.dictP 1 0 [])) d.entries

/-- `node_get_provenance(node)` (lines 320-329, no key). -/
def node_get_provenance (d : NDict) : Option Prov :=
  d.provOpt

/-- `node_get_provenance(node, key)`: the member record for `key`. -/
def node_get_provenance_key (d : NDict) (key : String) : Option Prov :=
  match d.provOpt with
  | some (.dictP _ _ ms) => memberLookup ms key
  | _ => none

/-- Descend `provenance.elements[index]` along an index path. -/
def provDescend : Prov → List Nat → Option Prov
  | p, [] => some p
  | p, i :: rest =>
      match p with
      | .memberP _ _ es | .elementP _ _ es =>
          match es.get? i with
          | some (.prov q) => provDescend q rest
          | _ => none
      | _ => none

/-- `node_get_provenance(node, key, indices)` (lines 320-329). -/
def node_get_provenance_at (d : NDict) (key : String) (indices : List Nat) :
    Option Prov :=
  (node_get_provenance_key d key).bind (fun p => provDescend p indices)

/-- Python `str.strip()`, applied by `node_get` to every returned string. -/
def pyStrip (s : String) : String :=
  ⟨((s.data.dropWhile Char.isWhitespace).reverse.dropWhile Char.isWhitespace).reverse⟩

/-- `node_get(node, list, key, default_value=dflt)` (lines 360-408)
specialized to list results: the default is returned for an absent key; a
present non-list value cannot be converted (`expected_type == list`) and
is an INVALID_DATA `LoadError`. -/
def node_get_list (d : NDict) (key : String) (dflt : List Value) :
    Except Err (List Value) :=
  match d.get key with
  | none => pure dflt
  | some (.vlist xs) => pure xs
  | some _ => throw .invalidData

/-- `node_get(node, list, key, default_value=[None])` as used by
`composite_list_overwrite` (line 596): `none` models the `[None]` sentinel
produced only when the key is absent. -/
def node_get_list_sentinel (d : NDict) (key : String) :
    Except Err (Option (List Value)) :=
  match d.get key with
  | none => pure none
  | some (.vlist xs) => pure (some xs)
  | some _ => throw .invalidData

/-- `node_get(node, str, key, default_value=…)` (lines 360-408)
specialized to string results.  `dflt = none` means no default (an absent
key is an INVALID_DATA `LoadError`); `dflt = some d₀` returns `d₀` for an
absent key (`some none` is `default_value=None`).  Returned strings are
stripped; a dict or list value cannot be converted. -/
def node_get_str (d : NDict) (key : String) (dflt : Option (Option String)) :
    Except Err (Option String) :=
  match d.get key, dflt with
  | none, none => throw .invalidData
  | none, some d₀ => pure d₀
  | some (.scalar s), _ => pure (some (pyStrip s))
  | some _, _ => throw .invalidData

/-- `node_validate` (lines 884-894): fail on the first key outside
`valid_keys` (the provenance entry is filtered by construction here). -/
def node_validate (d : NDict) (validKeys : List String) : Except Err Unit :=
  match d.entries.find? (fun kv => !(validKeys.contains kv.fst)) with
  | some _ => throw .invalidData
  | none => pure ()

mutual
/-- `node_copy` (lines 928-945): entry-wise copy, provenance entries are
cloned, then `ensure_provenance`. -/
def node_copy : NDict → Except Err NDict
  | .mk p? es => do
      let es' ← copyEntries es
      let p' ← match p? with
        | some p => do pure (some (← p.clone))
        | none => pure (none : Option Prov)
      pure (ensure_provenance (.mk p' es'))

def copyEntries : List (String × Value) → Except Err (List (String × Value))
  | [] => pure []
  | (k, v) :: es => do pure ((k, ← copyValue v) :: (← copyEntries es))

/-- `list_copy` (lines 948-963). -/
def list_copy : List Value → Except Err (List Value)
  | [] => pure []
  | v :: vs => do pure ((← copyValue v) :: (← list_copy vs))

def copyValue : Value → Except Err Value
  | .scalar s => pure (.scalar s)
  | .vlist xs => do pure (.vlist (← list_copy xs))
  | .vdict d => do pure (.vdict (← node_copy d))
end

/-- A provenance-free YAML tree, as handed over by the ruamel front end
before `node_decorated_copy` runs. -/
inductive Plain where
  | scalar (s : String)
  | plist (xs : List Plain)
  | pdict (es : List (String × Plain))

mutual
/-- Decoration of a parsed value, following `node_decorate_dict` /
`node_decorate_list` (lines 264-306): every dict gets a `DictProvenance`
with one `MemberProvenance` per key; a list-valued member gets one
`ElementProvenance` per element, recursively for lists of lists.  The
ruamel `lc` line/column metadata is immaterial to every claim and is
modelled by constants. -/
def plainValue : Plain → Value
  | .scalar s => .scalar s
  | .plist xs => .vlist (plainList xs)
  | .pdict es =>
      .vdict (.mk (some (.dictP 1 0 (decorateMembers es))) (decorateEntries es))
termination_by structural p => p

def plainList : List Plain → List Value
  | [] => []
  | x :: xs => plainValue x :: plainList xs
termination_by structural xs => xs

def decorateMembers : List (String × Plain) → List (String × Prov)
  | [] => []
  | (k, v) :: es => (k, .memberP 0 0 (memberElems v)) :: decorateMembers es
termination_by structural es => es

def memberElems : Plain → List PElem
  | .plist xs => elemList xs
  | _ => []

def elemList : List Plain → List PElem
  | [] => []
  | x :: xs => .prov (.elementP 0 0 (elemElems x)) :: elemList xs
termination_by structural xs => xs

def elemElems : Plain → List PElem
  | .plist xs => elemList xs
  | _ => []
termination_by structural p => p

def decorateEntries : List (String × Plain) → List (String × Value)
  | [] => []
  | (k, v) :: es => (k, plainValue v) :: decorateEntries es
termination_by structural es => es
end

/-- `node_decorated_copy` of a whole parsed dict (lines 264-272): the
toplevel dict decorated in place. -/
def decorateDict (es : List (String × Plain)) : NDict :=
  .mk (some (.dictP 1 0 (decorateMembers es))) (decorateEntries es)

mutual
/-- Strip provenance from a value, for stating results structurally. -/
def Value.toPlain : Value → Plain
  | .scalar s => .scalar s
  | .vlist xs => .plist (toPlainList xs)
  | .vdict (.mk _ es) => .pdict (toPlainEntries es)

def toPlainList : List Value → List Plain
  | [] => []
  | v :: vs => v.toPlain :: toPlainList vs

def toPlainEntries : List (String × Value) → List (String × Plain)
  | [] => []
  | (k, v) :: es => (k, v.toPlain) :: toPlainEntries es
end

/-- `is_composite_list` inner loop (lines 483-494): scan keys, flagging
directives and ordinary keys; a mix raises INVALID_DATA. -/
def isCompositeEntries : List (String × Value) → Bool → Bool → Except Err Bool
  | [], hasDirectives, _ => pure hasDirectives
  | (k, _) :: es, hasDirectives, hasKeys =>
      let isDir : Bool := k == "(>)" || k == "(<)" || k == "(=)"
      let hasDirectives := hasDirectives || isDir
      let hasKeys := hasKeys || !isDir
      if hasDirectives && hasKeys then throw .invalidData
      else isCompositeEntries es hasDirectives hasKeys

/-- `is_composite_list` (lines 477-496). -/
def is_composite_list : Value → Except Err Bool
  | .vdict d => isCompositeEntries d.entries false false
  | _ => pure false

/-- `composite_list_prepend` (lines 512-536). -/
def composite_list_prepend (target : NDict) (targetKey : String)
    (source : NDict) (sourceKey : String) : Except Err (NDict × Bool) := do
  let sourceList ← node_get_list source sourceKey []
  if sourceList.isEmpty then
    pure (target, false)
  else do
    let target :=
      match target.get targetKey with
      | none => target.set targetKey (.vlist [])
      | some _ => target
    let sourceList ← list_copy sourceList
    let targetList ←
      match target.get targetKey with
      | some (.vlist xs) => pure xs
      | _ => throw Err.pyFault       -- only a list has .insert
    let target := target.set targetKey (.vlist (sourceList ++ targetList))
    let tp ← match node_get_provenance target with
      | some p => pure p
      | none => throw Err.pyFault
    let sp ← match node_get_provenance source with
      | some p => pure p
      | none => throw Err.pyFault
    let tms ← tp.membersOf
    let sms ← sp.membersOf
    let sm ← match memberLookup sms sourceKey with
      | some m => pure m
      | none => throw Err.pyFault    -- KeyError
    match memberLookup tms targetKey with
    | none => do
        let mc ← sm.clone
        let target ← target.setProvMember targetKey mc
        pure (target, true)
    | some tm => do
        let selems ← sm.elementsOf
        let cloned ← cloneElemsCall selems
        let telems ← tm.elementsOf
        let tm ← tm.withElements (cloned ++ telems)
        let target ← target.setProvMember targetKey tm
        pure (target, true)

/-- `composite_list_append` (lines 552-576). -/
def composite_list_append (target : NDict) (targetKey : String)
    (source : NDict) (sourceKey : String) : Except Err (NDict × Bool) := do
  let sourceList ← node_get_list source sourceKey []
  if sourceList.isEmpty then
    pure (target, false)
  else do
    let target :=
      match target.get targetKey with
      | none => target.set targetKey (.vlist [])
      | some _ => target
    let sourceList ← list_copy sourceList
    let targetList ←
      match target.get targetKey with
      | some (.vlist xs) => pure xs
      | _ => throw Err.pyFault       -- only a list has .extend
    let target := target.set targetKey (.vlist (targetList ++ sourceList))
    let tp ← match node_get_provenance target with
      | some p => pure p
      | none => throw Err.pyFault
    let sp ← match node_get_provenance source with
      | some p => pure p
      | none => throw Err.pyFault
    let tms ← tp.membersOf
    let sms ← sp.membersOf
    let sm ← match memberLookup sms sourceKey with
      | some m => pure m
      | none => throw Err.pyFault
    match memberLookup tms targetKey with
    | none => do
        let mc ← sm.clone
        let target ← target.setProvMember targetKey mc
        pure (target, true)
    | some tm => do
        let selems ← sm.elementsOf
        let cloned ← cloneElemsCall selems
        let telems ← tm.elementsOf
        let tm ← tm.withElements (telems ++ cloned)
        let target ← target.setProvMember targetKey tm
        pure (target, true)

/-- `composite_list_overwrite` (lines 592-606):
a `[None]` default distinguishes an absent key from an empty list. -/
def composite_list_overwrite (target : NDict) (targetKey : String)
    (source : NDict) (sourceKey : String) : Except Err (NDict × Bool) := do
  match ← node_get_list_sentinel source sourceKey with
  | none => pure (target, false)
  | some sourceList => do
      let copied ← list_copy sourceList
      let target := target.set targetKey (.vlist copied)
      let sp ← match node_get_provenance source with
        | some p => pure p
        | none => throw Err.pyFault
      let sms ← sp.membersOf
      let sm ← match memberLookup sms sourceKey with
        | some m => pure m
        | none => throw Err.pyFault
      let mc ← sm.clone
      let target ← target.setProvMember targetKey mc
      pure (target, true)

/-- The per-directive deletion of lines 689-695: `del target_value[d]`
first (a KeyError skips the rest of the iteration), then
`del target_provenance.members[d]` with its own KeyError ignored. -/
def delDirectiveKey (td : NDict) (dkey : String) : Except Err NDict :=
  if td.hasKey dkey then
    match td.provOpt with
    | some (.dictP _ _ _) => pure ((td.del dkey).delProvMember dkey)
    | _ => throw Err.pyFault
  else
    pure td

/-- `composite_list` (lines 625-710). -/
def composite_list (target source : NDict) (key : String) :
    Except Err (NDict × Bool) := do
  let targetValue := target.get key
  let sourceValue ← match source.get key with
    | some v => pure v
    | none => throw Err.pyFault     -- source_node[key]
  match sourceValue with
  | .vlist _ => do
      -- a literal source list overwrites, unless the target value exists
      -- and is neither a list nor a composite-directive mapping
      let ok ← match targetValue with
        | none => pure true
        | some (.vlist _) => pure true
        | some tv => is_composite_list tv
      if ok then do
        let (target, _) ← composite_list_overwrite target key source key
        pure (target, true)
      else
        throw .invalidData          -- "List cannot overwrite value at: …"
  | _ => do
      if ← is_composite_list sourceValue then
        match sourceValue with
        | .vdict sd =>
            match targetValue with
            | none => do
                -- copy the composite list wholesale, still unresolved
                let copied ← node_copy sd
                let target := target.set key (.vdict copied)
                let sp ← match node_get_provenance source with
                  | some p => pure p
                  | none => throw Err.pyFault
                let sms ← sp.membersOf
                let sm ← match memberLookup sms key with
                  | some m => pure m
                  | none => throw Err.pyFault
                let mc ← sm.clone
                let target ← target.setProvMember key mc
                pure (target, true)
            | some (.vlist _) => do
                -- resolve directives directly onto the literal target list
                let (target, _) ← composite_list_overwrite target key sd "(=)"
                let (target, _) ← composite_list_prepend target key sd "(<)"
                let (target, _) ← composite_list_append target key sd "(>)"
                pure (target, true)
            | some tv => do
                if ← is_composite_list tv then
                  match tv with
                  | .vdict td => do
                      let (td, owrote) ← composite_list_overwrite td "(=)" sd "(=)"
                      let td ←
                        if owrote then do
                          let td ← delDirectiveKey td "(<)"
                          delDirectiveKey td "(>)"
                        else pure td
                      let (td, _) ← composite_list_prepend td "(<)" sd "(<)"
                      let (td, _) ← composite_list_append td "(>)" sd "(>)"
                      pure (target.set key (.vdict td), true)
                  | _ => throw Err.pyFault
                else
                  throw .invalidData  -- "List cannot overwrite value at: …"
        | _ => throw Err.pyFault
      else
        pure (target, false)

mutual
/-- `composite_dict` (lines 730-781).  Both nodes are mutated in Python;
the model returns `(target, source)` — the source is only ever touched by
`ensure_provenance` (here and in recursive calls). -/
def composite_dict (target source : NDict) (path? : Option String) :
    Except Err (NDict × NDict) :=
  match source with
  | .mk sp? ses =>
      let target := ensure_provenance target
      let source := ensure_provenance (NDict.mk sp? ses)
      compositeEntries target source ses path?
termination_by structural source

/-- The `for key, source_value in node_items(source)` loop of
`composite_dict`: the iteration list is the source's entry list, which
toplevel composition never changes. -/
def compositeEntries (target source : NDict)
    (es : List (String × Value)) (path? : Option String) :
    Except Err (NDict × NDict) :=
  match es with
  | [] => pure (target, source)
  | (key, sv) :: rest => do
      let (target, source) ← compositeStep target source key sv path?
      compositeEntries target source rest path?
termination_by structural es

/-- One iteration of the `composite_dict` loop for key `key` with source
value `sv` (lines 736-781). -/
def compositeStep (target source : NDict) (key : String) (sv : Value)
    (path? : Option String) : Except Err (NDict × NDict) := do
  let thispath := match path? with
    | some p => p ++ "." ++ key
    | none => key
  let (target, handled) ← composite_list target source key
  if handled then
    pure (target, source)
  else
    match sv with
    | .vdict sd => do
        -- handle creating new dicts on the target side
        let target ←
          match target.get key with
          | none => do
              let vp ← match sd.provOpt with
                | some p => do pure (some (← p.clone))
                | none => pure (none : Option Prov)
              let target := target.set key (.vdict (.mk vp []))
              -- target_provenance.members[key] = source_provenance.members[key]
              let sp ← match source.provOpt with
                | some p => pure p
                | none => throw Err.pyFault
              let sms ← sp.membersOf
              let sm ← match memberLookup sms key with
                | some m => pure m
                | none => throw Err.pyFault
              target.setProvMember key sm
          | some _ => pure target
        match target.get key with
        | some (.vdict td) => do
            let (td, sd) ← composite_dict td sd (some thispath)
            pure (target.set key (.vdict td), source.set key (.vdict sd))
        | some tv => throw (Err.compositeTypeError thispath tv.kindOf .dict)
        | none => throw Err.pyFault
    | _ => do
        -- simple values; lists and mappings were already handled
        match target.get key with
        | some (.scalar _) => pure ()    -- any two stringish values compose
        | some tv => throw (Err.compositeTypeError thispath tv.kindOf sv.kindOf)
        | none => pure ()
        let sp ← match source.provOpt with
          | some p => pure p
          | none => throw Err.pyFault
        let sms ← sp.membersOf
        let sm ← match memberLookup sms key with
          | some m => pure m
          | none => throw Err.pyFault
        let mc ← sm.clone
        let target ← target.setProvMember key mc
        pure (target.set key sv, source)
termination_by structural sv
end

/-- `composite` (lines 786-801): rethrow `CompositeTypeError` as an
ILLEGAL_COMPOSITE `LoadError` carrying the path and both kinds. -/
def composite (target source : NDict) : Except Err (NDict × NDict) :=
  match composite_dict target source none with
  | .error (.compositeTypeError path expected actual) =>
      .error (.illegalComposite path expected actual)
  | r => r

/-- `composite_and_move` (lines 806-813): `composite(source, target)`
mutates the caller's source in place, then source members (including the
provenance entry) are written over the target and leftover target keys
are deleted. -/
def composite_and_move (target source : NDict) : Except Err (NDict × NDict) := do
  let (source, target) ← composite source target
  let toDelete := (target.entries.map Prod.fst).filter
      (fun k => !(source.hasKey k))
  let target := source.entries.foldl (fun t kv => t.set kv.fst kv.snd) target
  let target :=
    match source.provOpt with
    | some p => NDict.mk (some p) target.entries
    | none => target
  let target := toDelete.foldl NDict.del target
  pure (target, source)

/-- Lexicographic code-point comparison — the order Python's `sorted`
uses on `str`. -/
def lexLe : List Nat → List Nat → Bool
  | [], _ => true
  | _ :: _, [] => false
  | x :: xs, y :: ys => if x < y then true else if y < x then false else lexLe xs ys

def strLe (a b : String) : Bool :=
  lexLe (a.data.map Char.toNat) (b.data.map Char.toNat)

/-- The key order on dict entries. -/
def entryLe (a b : String × Value) : Prop :=
  strLe a.fst b.fst = true

instance : DecidableRel entryLe := fun a b =>
  inferInstanceAs (Decidable (strLe a.fst b.fst = true))

/-- Stable insertion sort of dict entries by key — `sorted(key_list)`
applied to the entries of a (unique-keyed) dict. -/
def sortEntries (es : List (String × Value)) : List (String × Value) :=
  List.insertionSort entryLe es

mutual
/-- `node_sanitize` (lines 838-867): scalars pass through, a list is
sanitized elementwise in order, a dict becomes a `SanitizedDict` holding
the non-provenance keys in sorted order with sanitized values and no
provenance entry.  (The source iterates `for key in sorted(key_list):
result[key] = node_sanitize(node[key])`; over the unique keys of a dict
that is the same as sanitizing each value and stable-sorting the entries
by key, the form used here.) -/
def node_sanitize : Value → Value
  | .scalar s => .scalar s
  | .vlist xs => .vlist (sanitizeList xs)
  | .vdict (.mk _ es) => .vdict (.mk none (sortEntries (sanitizeEntries es)))
termination_by structural v => v

def sanitizeList : List Value → List Value
  | [] => []
  | v :: vs => node_sanitize v :: sanitizeList vs
termination_by structural vs => vs

def sanitizeEntries : List (String × Value) → List (String × Value)
  | [] => []
  | (k, v) :: es => (k, node_sanitize v) :: sanitizeEntries es
termination_by structural es => es
end

def chainSortedKeys : List String → Bool
  | [] => true
  | [_] => true
  | a :: b :: rest => strLe a b && chainSortedKeys (b :: rest)

mutual
/-- The canonical-form invariant `node_sanitize` is meant to establish:
every dict in the tree carries no provenance and lists its keys in
lexicographic order. -/
def sanitizedInv : Value → Bool
  | .scalar _ => true
  | .vlist xs => sanitizedInvList xs
  | .vdict (.mk p es) =>
      p.isNone && chainSortedKeys (es.map Prod.fst) && sanitizedInvEntries es
termination_by structural v => v

def sanitizedInvList : List Value → Bool
  | [] => true
  | v :: vs => sanitizedInv v && sanitizedInvList vs
termination_by structural vs => vs

def sanitizedInvEntries : List (String × Value) → Bool
  | [] => true
  | (_, v) :: es => sanitizedInv v && sanitizedInvEntries es
termination_by structural es => es
end

/-- The outcome of `yaml.load` on the raw text (line 219): a ruamel
Scanner/Composer/Parser error, or a parsed toplevel value (`none` for an
empty or comment-only document). -/
inductive ParseResult where
  | parseError
  | parsed (contents : Option Plain)

/-- `load_data` (lines 216-233), with the ruamel parse abstracted as a
`ParseResult`: a parse failure raises an INVALID_YAML `LoadError`; a
non-dict toplevel other than `None` raises INVALID_YAML; a `None`
toplevel is replaced by `{}`; the surviving dict is decorated with
provenance by `node_decorated_copy`. -/
def load_data : ParseResult → Except Err NDict
  | .parseError => throw .invalidYaml
  | .parsed none => pure (decorateDict [])
  | .parsed (some (.pdict es)) => pure (decorateDict es)
  | .parsed (some _) => throw .invalidYaml

/-- `node_get(node, str, key)` with no default: the key is required. -/
def node_get_str_req (d : NDict) (key : String) : Except Err String :=
  match d.get key with
  | some (.scalar s) => pure (pyStrip s)
  | some _ => throw .invalidData
  | none => throw .invalidData

/-- Dependency kinds.  Modelled from the spec: the `Symbol` string
constants live in `_loader/types.py`, which is not under src/ — the spec
fixes them as `depends` / `build-depends` / `runtime-depends` /
`filename` / `type` / `junction` / `build` / `runtime` / `all`.
`Symbol.ALL` and an absent type are both stored as `None`
(unrestricted). -/
inductive DepType where
  | build
  | runtime
deriving DecidableEq

/-- A Dependency descriptor (`_loader/types.py`, modelled from the spec:
target name, kind with `none` meaning unrestricted, optional
cross-project junction, originating provenance). -/
structure Dependency where
  name : String
  depType : Option DepType
  junction : Option String
  provenance : Option Prov

/-- One entry of a dependency list (lines 149-183): a bare string takes
the field's implied kind; a mapping is validated and read field by field;
anything else is INVALID_DATA. -/
def extractOneDep (node : NDict) (key : String)
    (defaultDepType : Option DepType) (index : Nat) (dep : Value) :
    Except Err Dependency := do
  let depProvenance := node_get_provenance_at node key [index]
  match dep with
  | .scalar s => pure ⟨s, defaultDepType, none, depProvenance⟩
  | .vdict dd => do
      let depType ←
        match defaultDepType with
        | some t => do
            node_validate dd ["filename", "junction"]
            pure (some t)
        | none => do
            node_validate dd ["filename", "type", "junction"]
            match ← node_get_str dd "type" (some none) with
            | none => pure (none : Option DepType)
            | some t =>
                if t == "all" then pure none
                else if t == "build" then pure (some DepType.build)
                else if t == "runtime" then pure (some DepType.runtime)
                else throw Err.invalidData
      let filename ← node_get_str_req dd "filename"
      let junction ← node_get_str dd "junction" (some none)
      pure ⟨filename, depType, junction, depProvenance⟩
  | .vlist _ => throw Err.invalidData

/-- The `for index, dep in enumerate(depends)` loop of lines 149-183. -/
def extractDepsList (node : NDict) (key : String)
    (defaultDepType : Option DepType) :
    List Value → Nat → Except Err (List Dependency)
  | [], _ => pure []
  | dep :: rest, i => do
      let d ← extractOneDep node key defaultDepType i dep
      let ds ← extractDepsList node key defaultDepType rest (i + 1)
      pure (d :: ds)

/-- `_extract_depends_from_node(node, key=key)` (lines 131-189) for one
of the three dependency keys: read the list (default `[]`), build the
descriptors, then delete the key from the node. -/
def extract_depends_for_key (node : NDict) (key : String)
    (defaultDepType : Option DepType) :
    Except Err (List Dependency × NDict) := do
  let depsVals ← node_get_list node key []
  let out ← extractDepsList node key defaultDepType depsVals 0
  let node := if node.hasKey key then node.del key else node
  pure (out, node)

/-- `_extract_depends_from_node(node)` (lines 131-136): build-depends
entries first, then runtime-depends, then generic depends, each field's
internal order preserved, and all three keys removed from the node. -/
def extract_depends_from_node (node : NDict) :
    Except Err (List Dependency × NDict) := do
  let (buildDeps, node) ← extract_depends_for_key node "build-depends" (some .build)
  let (runtimeDeps, node) ← extract_depends_for_key node "runtime-depends" (some .runtime)
  let (genericDeps, node) ← extract_depends_for_key node "depends" none
  pure (buildDeps ++ runtimeDeps ++ genericDeps, node)

/-- The loader's element graph: fully-qualified name ↦ the names its
dependency descriptors resolve to.  Modelled from the spec:
`Loader.get_element_for_dep` (the Loader is not under src/) resolves a
descriptor to the Load Element of that name. -/
abbrev DepsMap := List (String × List String)

/-- The `_dep_cache` fields of all elements: a present entry is an
initialized cache dict modelled by its ordered key list.  An absent entry
is the constructor's `None`; an empty list is the freshly assigned `{}` —
both are Python-falsy for the `if self._dep_cache:` guard. -/
abbrev Caches := List (String × List String)

def lookupA {α : Type} : List (String × α) → String → Option α
  | [], _ => none
  | (k, v) :: m, key => if k = key then some v else lookupA m key

def setA {α : Type} : List (String × α) → String → α → List (String × α)
  | [], key, v => [(key, v)]
  | (k, w) :: m, key, v =>
      if k = key then (k, v) :: m else (k, w) :: setA m key v

/-- `self._dep_cache[name] = True`: dict insertion order, existing keys
keep their position. -/
def dictSetKey (c : List String) (k : String) : List String :=
  if c.contains k then c else c ++ [k]

/-- `self._dep_cache.update(other)`: new keys appended in the other
dict's order. -/
def dictUpdate (c : List String) (ks : List String) : List String :=
  ks.foldl dictSetKey c

mutual
/-- `LoadElement._ensure_depends_cache` (lines 98-114) over the explicit
element graph, with a step budget: `none` means the budget ran out — the
Python original would still be recursing.  Note the guard
`if self._dep_cache: return` is Python truthiness, so both an
uninitialized (`None`) and an in-progress empty (`{}`) cache fall
through to recomputation; there is no in-progress marker and no cycle
check anywhere in the function. -/
def ensure_depends_cache (deps : DepsMap) : Nat → Caches → String → Option Caches
  | 0, _, _ => none
  | fuel + 1, caches, name =>
      match lookupA caches name with
      | some (_ :: _) => some caches
      | _ =>
          ensureDepsLoop deps fuel (setA caches name [])
            name ((lookupA deps name).getD [])

def ensureDepsLoop (deps : DepsMap) : Nat → Caches → String → List String → Option Caches
  | 0, _, _, _ => none
  | _ + 1, caches, _, [] => some caches
  | fuel + 1, caches, name, d :: ds =>
      match ensure_depends_cache deps fuel caches d with
      | none => none
      | some caches =>
          let c := (lookupA caches name).getD []
          let c := dictSetKey c d
          let c := dictUpdate c ((lookupA caches d).getD [])
          ensureDepsLoop deps fuel (setA caches name c) name ds
end

/-- `LoadElement.depends` (lines 91-93): ensure the cache, then test
`self._dep_cache.get(other.full_name) is not None`. -/
def LoadElement.depends (deps : DepsMap) (fuel : Nat) (caches : Caches)
    (self other : String) : Option (Caches × Bool) :=
  match ensure_depends_cache deps fuel caches self with
  | none => none
  | some caches => some (caches, ((lookupA caches self).getD []).contains other)

/-- `True` exactly when a composition result is the ILLEGAL_COMPOSITE
`LoadError` produced by `composite` from a `CompositeTypeError`. -/
def errIsIllegalComposite {α : Type} : Except Err α → Bool
  | .error (.illegalComposite _ _ _) => true
  | _ => false

/-- A provenance record (and not an uncalled bound method). -/
def PElem.isProv : PElem → Bool
  | .prov _ => true
  | .method _ => false

/-- Projection: the target half of a composition result, as keys. -/
def resultTargetKeys (r : Except Err (NDict × NDict)) : Option (List String) :=
  match r with
  | .ok (t, _) => some t.keys
  | .error _ => none

/-- Projection: the source half of a composition result, as keys. -/
def resultSourceKeys (r : Except Err (NDict × NDict)) : Option (List String) :=
  match r with
  | .ok (_, s) => some s.keys
  | .error _ => none

/-- Projection: the target half of a composition result, provenance
stripped. -/
def resultTargetEntries (r : Except Err (NDict × NDict)) :
    Option (List (String × Plain)) :=
  match r with
  | .ok (t, _) => some (toPlainEntries t.entries)
  | .error _ => none

/-- Projection: the source half of a composition result, provenance
stripped. -/
def resultSourceEntries (r : Except Err (NDict × NDict)) :
    Option (List (String × Plain)) :=
  match r with
  | .ok (_, s) => some (toPlainEntries s.entries)
  | .error _ => none

/-- Projection: the target half's value at `key`, provenance stripped. -/
def resultTargetValueAt (r : Except Err (NDict × NDict)) (key : String) :
    Option Plain :=
  match r with
  | .ok (t, _) => (t.get key).map Value.toPlain
  | .error _ => none

/-- `composite` projected to the updated target. -/
def compositeT (t s : NDict) : Except Err NDict :=
  (composite t s).map Prod.fst

/-- Two successive compositions onto the same target. -/
def composite_twice (t s₁ s₂ : NDict) : Except Err NDict := do
  let t ← compositeT t s₁
  let t ← compositeT t s₂
  pure t

/-- The value at `key` of a composition result, provenance stripped. -/
def composite_value_at (r : Except Err NDict) (key : String) : Option Plain :=
  match r with
  | .ok t => (t.get key).map Value.toPlain
  | .error _ => none

/-- Resolve a previously composed source (carrying an unresolved directive
mapping) onto a fresh target, and read the value at `key`. -/
def resolveOnto (src : Except Err NDict) (t : NDict) (key : String) : Option Plain :=
  match src with
  | .ok s => composite_value_at (compositeT t s) key
  | .error _ => none

theorem lookupA_setA_self {α : Type} (m : List (String × α)) (k : String) (v : α) :
    lookupA (setA m k v) k = some v := by
  induction m with
  | nil => simp [setA, lookupA]
  | cons e m ih =>
      obtain ⟨k', w⟩ := e
      by_cases h : k' = k
      · simp [setA, lookupA, h]
      · simp [setA, lookupA, h, ih]

theorem lookupA_setA_ne {α : Type} (m : List (String × α)) (k k' : String) (v : α)
    (h : k ≠ k') : lookupA (setA m k v) k' = lookupA m k' := by
  induction m with
  | nil => simp [setA, lookupA, h]
  | cons e m ih =>
      obtain ⟨k₀, w⟩ := e
      by_cases h₀ : k₀ = k
      · subst h₀; simp [setA, lookupA, h]
      · simp [setA, lookupA, h₀, ih]

/-- In the two-element dependency cycle `A → B → A`, whenever both dep
caches are still uninitialized (`None`) or empty (`{}`) — both falsy for
the `if self._dep_cache: return` guard — `_ensure_depends_cache` exhausts
any step budget: the Python original recurses forever. -/
theorem cycle_cache_all_fuel_none : ∀ fuel : Nat,
    (∀ caches : Caches,
       (lookupA caches "A" = none ∨ lookupA caches "A" = some []) →
       (lookupA caches "B" = none ∨ lookupA caches "B" = some []) →
       ensure_depends_cache [("A", ["B"]), ("B", ["A"])] fuel caches "A" = none ∧
       ensure_depends_cache [("A", ["B"]), ("B", ["A"])] fuel caches "B" = none) ∧
    (∀ caches : Caches,
       (lookupA caches "A" = none ∨ lookupA caches "A" = some []) →
       (lookupA caches "B" = none ∨ lookupA caches "B" = some []) →
       ensureDepsLoop [("A", ["B"]), ("B", ["A"])] fuel caches "A" ["B"] = none ∧
       ensureDepsLoop [("A", ["B"]), ("B", ["A"])] fuel caches "B" ["A"] = none) := by
  intro fuel
  induction fuel with
  | zero => exact ⟨fun _ _ _ => ⟨rfl, rfl⟩, fun _ _ _ => ⟨rfl, rfl⟩⟩
  | succ f ih =>
      constructor
      · intro caches hA hB
        have hA' : lookupA (setA caches "A" ([] : List String)) "A" = some [] :=
          lookupA_setA_self caches "A" []
        have hB' : lookupA (setA caches "A" ([] : List String)) "B" =
            lookupA caches "B" :=
          lookupA_setA_ne caches "A" "B" [] (by decide)
        have hA'' : lookupA (setA caches "B" ([] : List String)) "B" = some [] :=
          lookupA_setA_self caches "B" []
        have hB'' : lookupA (setA caches "B" ([] : List String)) "A" =
            lookupA caches "A" :=
          lookupA_setA_ne caches "B" "A" [] (by decide)
        constructor
        · show ensure_depends_cache _ (f + 1) caches "A" = none
          simp only [ensure_depends_cache]
          rcases hA with h | h <;> rw [h] <;>
            exact (ih.2 (setA caches "A" []) (Or.inr hA')
              (hB' ▸ hB)).1
        · show ensure_depends_cache _ (f + 1) caches "B" = none
          simp only [ensure_depends_cache]
          rcases hB with h | h <;> rw [h] <;>
            exact (ih.2 (setA caches "B" []) (hB'' ▸ hA)
              (Or.inr hA'')).2
      · intro caches hA hB
        constructor
        · show ensureDepsLoop _ (f + 1) caches "A" ["B"] = none
          simp only [ensureDepsLoop]
          rw [(ih.1 caches hA hB).2]
        · show ensureDepsLoop _ (f + 1) caches "B" ["A"] = none
          simp only [ensureDepsLoop]
          rw [(ih.1 caches hA hB).1]

/-- C1: the claim says a cyclic descriptor set makes the depends-cache
computation terminate by raising a `CircularDependencyError` naming the
cycle.  The code has no cycle detection at all (and no such error class
anywhere in `loadelement.py`): on the cycle `A ↔ B`, for every step
budget, `_ensure_depends_cache` (and hence `depends`) is still recursing
when the budget runs out — in Python it recurses until the interpreter's
`RecursionError`, it never raises `CircularDependencyError`. -/
theorem c1_cyclic_depends_cache_recursion_never_terminates : ∀ fuel : Nat,
    ensure_depends_cache [("A", ["B"]), ("B", ["A"])] fuel [] "A" = none ∧
    LoadElement.depends [("A", ["B"]), ("B", ["A"])] fuel [] "A" "B" = none := by
  intro fuel
  have h := ((cycle_cache_all_fuel_none fuel).1 []
    (Or.inl rfl) (Or.inl rfl)).1
  refine ⟨h, ?_⟩
  unfold LoadElement.depends
  rw [h]

/-- C4: on the acyclic chain `A → B → C`, `A.depends(C)` is true and
`C.depends(A)` is false; and in general `depends(self, other)` returns
exactly the membership test of `other`'s full name in `self`'s memoized
transitive-closure cache (once `_ensure_depends_cache` has filled it). -/
theorem c4_depends_transitive_chain :
    ((LoadElement.depends [("A", ["B"]), ("B", ["C"]), ("C", [])] 10 []
        "A" "C").map Prod.snd = some true ∧
     (LoadElement.depends [("A", ["B"]), ("B", ["C"]), ("C", [])] 10 []
        "C" "A").map Prod.snd = some false) ∧
    (∀ (deps : DepsMap) (fuel : Nat) (caches : Caches) (self other : String),
       LoadElement.depends deps fuel caches self other =
         (ensure_depends_cache deps fuel caches self).map
           (fun st => (st, ((lookupA st self).getD []).contains other))) ∧
    (∀ (st : Caches) (self other : String),
       ((lookupA st self).getD []).contains other = true ↔
         other ∈ (lookupA st self).getD []) := by
  refine ⟨⟨rfl, rfl⟩, ?_, ?_⟩
  · intro deps fuel caches self other
    unfold LoadElement.depends
    cases ensure_depends_cache deps fuel caches self <;> rfl
  · intro st self other
    simp

/-- C2: composing the directive `{(<): [a]}` and then `{(>): [b]}` onto a
target whose value at the key is the literal list `[x, y]` leaves the
value `[a, x, y, b]`; composing `{(=): [a, b]}` onto a target whose value
is an unresolved directive mapping with accumulated `(<)`/`(>)` entries
discards those entries leaving exactly the overwrite directive, so that
resolving the result onto any literal list yields exactly `[a, b]`. -/
theorem c2_directive_accumulation_and_overwrite_discard :
    ∀ x y a b p q : String,
      composite_value_at
        (composite_twice
          (decorateDict [("k", .plist [.scalar x, .scalar y])])
          (decorateDict [("k", .pdict [("(<)", .plist [.scalar a])])])
          (decorateDict [("k", .pdict [("(>)", .plist [.scalar b])])])) "k" =
        some (.plist [.scalar a, .scalar x, .scalar y, .scalar b]) ∧
      composite_value_at
        (compositeT
          (decorateDict [("k", .pdict [("(<)", .plist [.scalar p]),
                                       ("(>)", .plist [.scalar q])])])
          (decorateDict [("k", .pdict [("(=)", .plist [.scalar a, .scalar b])])]))
        "k" =
        some (.pdict [("(=)", .plist [.scalar a, .scalar b])]) ∧
      resolveOnto
        (compositeT
          (decorateDict [("k", .pdict [("(<)", .plist [.scalar p]),
                                       ("(>)", .plist [.scalar q])])])
          (decorateDict [("k", .pdict [("(=)", .plist [.scalar a, .scalar b])])]))
        (decorateDict [("k", .plist [.scalar x, .scalar y])]) "k" =
        some (.plist [.scalar a, .scalar b]) := by
  intro x y a b p q
  exact ⟨rfl, rfl, rfl⟩

/-- C3 counterexample: composing the sequence-valued source key `k` onto a
target whose value at `k` is the ordinary mapping `{x: 1}` raises the
INVALID_DATA `LoadError` of `composite_list` line 644 ("List cannot
overwrite value at"), not the ILLEGAL_COMPOSITE kind the claim names. -/
theorem c3_counterexample_list_onto_mapping_is_invalid_data :
    composite (decorateDict [("k", .pdict [("x", .scalar "1")])])
        (decorateDict [("k", .plist [.scalar "2"])]) =
      .error .invalidData ∧
    errIsIllegalComposite
      (composite (decorateDict [("k", .pdict [("x", .scalar "1")])])
        (decorateDict [("k", .plist [.scalar "2"])])) = false :=
  ⟨rfl, rfl⟩

/-- C3 amended: composing a sequence-valued source key onto an ordinary
(non-directive) mapping target fails with an INVALID_DATA `LoadError`
(which carries no kind pair), while composing a mapping-valued source key
onto a scalar target fails with the ILLEGAL_COMPOSITE kind carrying both
conflicting kinds (expected `str`, received `dict`) at the key path. -/
theorem c3_amended_type_conflicts :
    ∀ v w : String,
      composite (decorateDict [("k", .pdict [("x", .scalar v)])])
          (decorateDict [("k", .plist [.scalar w])]) =
        .error .invalidData ∧
      composite (decorateDict [("k", .scalar v)])
          (decorateDict [("k", .pdict [("x", .scalar w)])]) =
        .error (.illegalComposite "k" .str .dict) := by
  intro v w
  exact ⟨rfl, rfl⟩

/-- C6 counterexample: a literal sequence source composed onto a key whose
target value is the scalar `"v"` does not overwrite it — it raises the
INVALID_DATA `LoadError` of `composite_list` line 644, though the claim
allows failure only for non-directive mapping targets. -/
theorem c6_counterexample_list_onto_scalar_fails :
    composite (decorateDict [("k", .scalar "v")])
        (decorateDict [("k", .plist [.scalar "a"])]) =
      .error .invalidData :=
  rfl

/-- C6 amended: a literal sequence source value overwrites the prior value
at the key when that prior value is absent, a sequence, or a
composition-directive mapping; it fails with the INVALID_DATA "List
cannot overwrite" `LoadError` when the prior value is a scalar or a
non-directive mapping. -/
theorem c6_amended_list_source_overwrite_cases :
    ∀ a x y p v q : String,
      composite_value_at
        (compositeT (decorateDict [])
          (decorateDict [("k", .plist [.scalar a])])) "k" =
        some (.plist [.scalar a]) ∧
      composite_value_at
        (compositeT (decorateDict [("k", .plist [.scalar x, .scalar y])])
          (decorateDict [("k", .plist [.scalar a])])) "k" =
        some (.plist [.scalar a]) ∧
      composite_value_at
        (compositeT (decorateDict [("k", .pdict [("(<)", .plist [.scalar p])])])
          (decorateDict [("k", .plist [.scalar a])])) "k" =
        some (.plist [.scalar a]) ∧
      composite (decorateDict [("k", .scalar v)])
          (decorateDict [("k", .plist [.scalar a])]) =
        .error .invalidData ∧
      composite (decorateDict [("k", .pdict [("x", .scalar q)])])
          (decorateDict [("k", .plist [.scalar a])]) =
        .error .invalidData := by
  intro a x y p v q
  exact ⟨rfl, rfl, rfl, rfl, rfl⟩

/-- C7 counterexample: `composite_and_move(target, source)` with
`target = {a: 1, b: 2}` and `source = {b: 3, c: 4}` leaves the caller's
source holding `{b: 2, c: 4, a: 1}` — `composite(source, target)` is run
directly on the source, not on a copy, so the source mapping does not
stay unchanged as the claim states. -/
theorem c7_counterexample_source_is_mutated :
    resultSourceEntries
      (composite_and_move
        (decorateDict [("a", .scalar "1"), ("b", .scalar "2")])
        (decorateDict [("b", .scalar "3"), ("c", .scalar "4")])) =
      some [("b", .scalar "2"), ("c", .scalar "4"), ("a", .scalar "1")] ∧
    toPlainEntries
      (decorateDict [("b", .scalar "3"), ("c", .scalar "4")]).entries =
      [("b", .scalar "3"), ("c", .scalar "4")] :=
  ⟨rfl, rfl⟩

/-- C7 amended: `composite_and_move(target, source)` composes target onto
the caller's source mapping itself — mutating it in place, with no copy,
so the source ends up holding the merged result — and then replaces
target's members with that merged result, deleting from target every
member not present in it (with this inverse composition every target key
is present in the merged result, so nothing is deleted). -/
theorem c7_amended_compose_and_move_states :
    ∀ s₁ s₂ s₃ s₄ : String,
      resultTargetEntries
        (composite_and_move
          (decorateDict [("a", .scalar s₁), ("b", .scalar s₂)])
          (decorateDict [("b", .scalar s₃), ("c", .scalar s₄)])) =
        some [("a", .scalar s₁), ("b", .scalar s₂), ("c", .scalar s₄)] ∧
      resultSourceEntries
        (composite_and_move
          (decorateDict [("a", .scalar s₁), ("b", .scalar s₂)])
          (decorateDict [("b", .scalar s₃), ("c", .scalar s₄)])) =
        some [("b", .scalar s₂), ("c", .scalar s₄), ("a", .scalar s₁)] := by
  intro s₁ s₂ s₃ s₄
  exact ⟨rfl, rfl⟩

/-- C8: the claim requires cloning an `ElementProvenance` whose elements
are themselves provenance records to yield a list of cloned provenance
records.  Line 154 (`[e.clone for e in self.elements]`) instead stores
the uncalled bound method: the clone's element is not a provenance record
(while the analogous `MemberProvenance.clone`, line 129, clones
correctly), and cloning such a damaged record again crashes with an
AttributeError. -/
theorem c8_element_provenance_clone_stores_bound_method :
    Prov.clone (.elementP 1 2 [.prov (.elementP 3 4 [])]) =
      .ok (.elementP 1 2 [.method (.elementP 3 4 [])]) ∧
    PElem.isProv (.method (.elementP 3 4 [])) = false ∧
    Prov.clone (.memberP 1 2 [.prov (.elementP 3 4 [])]) =
      .ok (.memberP 1 2 [.prov (.elementP 3 4 [])]) ∧
    Prov.clone (.elementP 1 2 [.method (.elementP 3 4 [])]) =
      .error .pyFault :=
  ⟨rfl, rfl, rfl, rfl⟩

/-- C9: for a composed element node with `build-depends: [x]`,
`runtime-depends: [y]` and `depends: [{filename: z, type: all}]` (plus a
`kind` key), extraction returns the descriptors in order — x as build, y
as runtime, z unrestricted, each field's internal order preserved — and
afterwards none of the three dependency keys remain in the node.  (The
`filename` string is whitespace-stripped by `node_get`, hence the
hypothesis on `z`.) -/
theorem c9_extract_depends_order_and_removal :
    ∀ x y z : String, pyStrip z = z →
      (extract_depends_from_node (decorateDict
        [ ("kind", .scalar "autotools")
        , ("build-depends", .plist [.scalar x])
        , ("runtime-depends", .plist [.scalar y])
        , ("depends", .plist [.pdict [("filename", .scalar z),
                                      ("type", .scalar "all")]]) ])).map
          (fun r => (r.1.map (fun d => (d.name, d.depType, d.junction)),
                     r.2.keys)) =
        .ok ([ (x, some DepType.build, none)
             , (y, some DepType.runtime, none)
             , (z, none, none) ], ["kind"]) := by
  intro x y z hz
  have h : (extract_depends_from_node (decorateDict
        [ ("kind", .scalar "autotools")
        , ("build-depends", .plist [.scalar x])
        , ("runtime-depends", .plist [.scalar y])
        , ("depends", .plist [.pdict [("filename", .scalar z),
                                      ("type", .scalar "all")]]) ])).map
          (fun r => (r.1.map (fun d => (d.name, d.depType, d.junction)),
                     r.2.keys)) =
      .ok ([ (x, some DepType.build, none)
           , (y, some DepType.runtime, none)
           , (pyStrip z, none, none) ], ["kind"]) := rfl
  rw [hz] at h
  exact h

/-- C9 witness: the hypothesis holds at `z = "z"` and the theorem applies
there. -/
theorem c9_extract_depends_witness :
    pyStrip "z" = "z" ∧
    (extract_depends_from_node (decorateDict
      [ ("kind", .scalar "autotools")
      , ("build-depends", .plist [.scalar "x"])
      , ("runtime-depends", .plist [.scalar "y"])
      , ("depends", .plist [.pdict [("filename", .scalar "z"),
                                    ("type", .scalar "all")]]) ])).map
        (fun r => (r.1.map (fun d => (d.name, d.depType, d.junction)),
                   r.2.keys)) =
      .ok ([ ("x", some DepType.build, none)
           , ("y", some DepType.runtime, none)
           , ("z", none, none) ], ["kind"]) :=
  ⟨rfl, c9_extract_depends_order_and_removal "x" "y" "z" rfl⟩

/-- C10: `load_data` raises the INVALID_YAML (malformed-syntax)
`LoadError` exactly for a parse failure or a non-mapping toplevel other
than `None`; a `None` toplevel (empty or comment-only file) yields the
decorated empty mapping instead; and every error `load_data` can raise is
the INVALID_YAML kind. -/
theorem c10_load_data_classification :
    load_data .parseError = .error .invalidYaml ∧
    load_data (.parsed none) = .ok (decorateDict []) ∧
    (∀ es, load_data (.parsed (some (.pdict es))) = .ok (decorateDict es)) ∧
    (∀ s, load_data (.parsed (some (.scalar s))) = .error .invalidYaml) ∧
    (∀ xs, load_data (.parsed (some (.plist xs))) = .error .invalidYaml) ∧
    (∀ (r : ParseResult) (e : Err), load_data r = .error e → e = .invalidYaml) := by
  refine ⟨rfl, rfl, fun _ => rfl, fun _ => rfl, fun _ => rfl, ?_⟩
  intro r e h
  match r with
  | .parseError => cases h; rfl
  | .parsed none => cases h
  | .parsed (some (.pdict _)) => cases h
  | .parsed (some (.scalar _)) => cases h; rfl
  | .parsed (some (.plist _)) => cases h; rfl

/-- C10 witness: the error-kind clause applied at the parse-error input. -/
theorem c10_load_data_witness : Err.invalidYaml = Err.invalidYaml :=
  c10_load_data_classification.2.2.2.2.2 .parseError .invalidYaml rfl

theorem lexLe_trans : ∀ xs ys zs : List Nat,
    lexLe xs ys = true → lexLe ys zs = true → lexLe xs zs = true := by
  intro xs
  induction xs with
  | nil => intro ys zs _ _; rfl
  | cons x xs ih =>
      intro ys zs h1 h2
      cases ys with
      | nil => simp [lexLe] at h1
      | cons y ys =>
          cases zs with
          | nil => simp [lexLe] at h2
          | cons z zs =>
              simp only [lexLe] at h1 h2 ⊢
              by_cases hxy : x < y
              · by_cases hyz : y < z
                · have hxz : x < z := Nat.lt_trans hxy hyz
                  simp [hxz]
                · by_cases hzy : z < y
                  · simp [hyz, hzy] at h2
                  · have hxz : x < z := by omega
                    simp [hxz]
              · by_cases hyx : y < x
                · simp [hxy, hyx] at h1
                · by_cases hyz : y < z
                  · have hxz : x < z := by omega
                    simp [hxz]
                  · by_cases hzy : z < y
                    · simp [hyz, hzy] at h2
                    · have h1' : lexLe xs ys = true := by
                        simpa [hxy, hyx] using h1
                      have h2' : lexLe ys zs = true := by
                        simpa [hyz, hzy] using h2
                      have hxz : ¬ x < z := by omega
                      have hzx : ¬ z < x := by omega
                      simpa [hxz, hzx] using ih ys zs h1' h2'

theorem lexLe_total : ∀ xs ys : List Nat,
    lexLe xs ys = false → lexLe ys xs = true := by
  intro xs
  induction xs with
  | nil => intro ys h; simp [lexLe] at h
  | cons x xs ih =>
      intro ys h
      cases ys with
      | nil => rfl
      | cons y ys =>
          simp only [lexLe] at h ⊢
          by_cases hxy : x < y
          · simp [hxy] at h
          · by_cases hyx : y < x
            · simp [hyx]
            · have h' : lexLe xs ys = false := by simpa [hxy, hyx] using h
              simpa [hxy, hyx] using ih ys h'

theorem strLe_trans {a b c : String} (h1 : strLe a b = true)
    (h2 : strLe b c = true) : strLe a c = true :=
  lexLe_trans _ _ _ h1 h2

theorem strLe_total (a b : String) (h : strLe a b = false) :
    strLe b a = true :=
  lexLe_total _ _ h

theorem entryLe_total' : ∀ a b : String × Value, entryLe a b ∨ entryLe b a := by
  intro a b
  cases h : strLe a.fst b.fst with
  | true => exact Or.inl h
  | false => exact Or.inr (strLe_total _ _ h)

theorem entryLe_trans' : ∀ a b c : String × Value,
    entryLe a b → entryLe b c → entryLe a c := by
  intro a b c h1 h2
  exact strLe_trans h1 h2

theorem pairwise_chainSortedKeys : ∀ ks : List String,
    List.Pairwise (fun a b => strLe a b = true) ks →
    chainSortedKeys ks = true := by
  intro ks h
  induction ks with
  | nil => rfl
  | cons a ks ih =>
      cases ks with
      | nil => rfl
      | cons b ks' =>
          rw [List.pairwise_cons] at h
          obtain ⟨hab, h'⟩ := h
          have h1 : strLe a b = true := hab b (by simp)
          show (strLe a b && chainSortedKeys (b :: ks')) = true
          rw [h1, ih h']
          rfl

theorem sortEntries_sorted (L : List (String × Value)) :
    List.Sorted entryLe (sortEntries L) := by
  haveI : IsTotal (String × Value) entryLe := ⟨entryLe_total'⟩
  haveI : IsTrans (String × Value) entryLe := ⟨entryLe_trans'⟩
  exact List.sorted_insertionSort entryLe L

theorem sortEntries_idem (L : List (String × Value)) :
    sortEntries (sortEntries L) = sortEntries L :=
  List.Sorted.insertionSort_eq (sortEntries_sorted L)

theorem chainSortedKeys_sortEntries (L : List (String × Value)) :
    chainSortedKeys ((sortEntries L).map Prod.fst) = true := by
  apply pairwise_chainSortedKeys
  rw [List.pairwise_map]
  exact (sortEntries_sorted L).imp (fun h => h)

theorem sanitizeEntries_orderedInsert (k : String) (v : Value) :
    ∀ L : List (String × Value),
      sanitizeEntries (List.orderedInsert entryLe (k, v) L) =
        List.orderedInsert entryLe (k, node_sanitize v) (sanitizeEntries L) := by
  intro L
  induction L with
  | nil => rfl
  | cons f fs ih =>
      obtain ⟨k', v'⟩ := f
      by_cases h : entryLe (k, v) (k', v')
      · have h2 : entryLe (k, node_sanitize v) (k', node_sanitize v') := h
        simp [List.orderedInsert, h, h2, sanitizeEntries]
      · have h2 : ¬ entryLe (k, node_sanitize v) (k', node_sanitize v') := h
        simp [List.orderedInsert, h, h2, sanitizeEntries, ih]

theorem sanitizeEntries_sortEntries : ∀ L : List (String × Value),
    sanitizeEntries (sortEntries L) = sortEntries (sanitizeEntries L) := by
  intro L
  induction L with
  | nil => rfl
  | cons e es ih =>
      obtain ⟨k, v⟩ := e
      show sanitizeEntries (List.orderedInsert entryLe (k, v) (sortEntries es)) = _
      rw [sanitizeEntries_orderedInsert, ih]
      rfl

theorem sanitizedInvEntries_iff : ∀ L : List (String × Value),
    sanitizedInvEntries L = true ↔ ∀ e ∈ L, sanitizedInv e.snd = true := by
  intro L
  induction L with
  | nil => simp [sanitizedInvEntries]
  | cons e es ih =>
      obtain ⟨k, v⟩ := e
      simp [sanitizedInvEntries, ih]

theorem sanitizedInvEntries_sortEntries_of (L : List (String × Value))
    (h : sanitizedInvEntries L = true) :
    sanitizedInvEntries (sortEntries L) = true := by
  rw [sanitizedInvEntries_iff] at h ⊢
  intro e he
  exact h e ((List.perm_insertionSort entryLe L).mem_iff.mp he)

theorem sanitizeList_eq_map : ∀ xs : List Value,
    sanitizeList xs = xs.map node_sanitize := by
  intro xs
  induction xs with
  | nil => rfl
  | cons v vs ih => simp [sanitizeList, ih]

mutual
theorem sanitize_idem : ∀ v : Value,
    node_sanitize (node_sanitize v) = node_sanitize v
  | .scalar _ => rfl
  | .vlist xs => by
      simp [node_sanitize, sanitizeList_idem xs]
  | .vdict (.mk p es) => by
      show Value.vdict (.mk none (sortEntries (sanitizeEntries
          (sortEntries (sanitizeEntries es))))) =
        Value.vdict (.mk none (sortEntries (sanitizeEntries es)))
      rw [sanitizeEntries_sortEntries (sanitizeEntries es),
          sanitizeEntries_idem es, sortEntries_idem]

theorem sanitizeList_idem : ∀ xs : List Value,
    sanitizeList (sanitizeList xs) = sanitizeList xs
  | [] => rfl
  | v :: vs => by
      simp [sanitizeList, sanitize_idem v, sanitizeList_idem vs]

theorem sanitizeEntries_idem : ∀ es : List (String × Value),
    sanitizeEntries (sanitizeEntries es) = sanitizeEntries es
  | [] => rfl
  | (k, v) :: es => by
      simp [sanitizeEntries, sanitize_idem v, sanitizeEntries_idem es]
end

mutual
theorem sanitizedInv_sanitize : ∀ v : Value,
    sanitizedInv (node_sanitize v) = true
  | .scalar _ => rfl
  | .vlist xs => by
      simp [node_sanitize, sanitizedInv, sanitizedInvList_sanitize xs]
  | .vdict (.mk p es) => by
      show sanitizedInv (.vdict (.mk none
          (sortEntries (sanitizeEntries es)))) = true
      simp only [sanitizedInv, Option.isNone_none, Bool.true_and]
      rw [chainSortedKeys_sortEntries,
          sanitizedInvEntries_sortEntries_of _
            (sanitizedInvEntries_sanitize es)]
      rfl

theorem sanitizedInvList_sanitize : ∀ xs : List Value,
    sanitizedInvList (sanitizeList xs) = true
  | [] => rfl
  | v :: vs => by
      simp [sanitizeList, sanitizedInvList, sanitizedInv_sanitize v,
        sanitizedInvList_sanitize vs]

theorem sanitizedInvEntries_sanitize : ∀ es : List (String × Value),
    sanitizedInvEntries (sanitizeEntries es) = true
  | [] => rfl
  | (k, v) :: es => by
      simp [sanitizeEntries, sanitizedInvEntries, sanitizedInv_sanitize v,
        sanitizedInvEntries_sanitize es]
end

/-- C5: `node_sanitize` is idempotent; in every sanitized result each
mapping carries no provenance and lists its keys in lexicographic
(code-point) order regardless of the input order; and a sequence is
sanitized elementwise, preserving element order. -/
theorem c5_sanitize_idempotent_sorted_stripped :
    (∀ x : Value, node_sanitize (node_sanitize x) = node_sanitize x) ∧
    (∀ x : Value, sanitizedInv (node_sanitize x) = true) ∧
    (∀ xs : List Value,
      node_sanitize (.vlist xs) = .vlist (xs.map node_sanitize)) := by
  refine ⟨sanitize_idem, sanitizedInv_sanitize, ?_⟩
  intro xs
  show Value.vlist (sanitizeList xs) = Value.vlist (xs.map node_sanitize)
  rw [sanitizeList_eq_map]
